import Mathlib

/-!
Verification of the jupyter_flashpoint request-orchestration and
response-flattening pipeline.  The definitions below are a shallow
embedding of the Python sources:

* `flashpoint_utils/flashpoint_api.py` (`FlashpointAPI._fetch`,
  `_concurrent_fetches`, `search_media`, `get_image`, `search_chat`)
* `flashpoint_utils/api_response_parser.py` (`ResponseParser`)
* `flashpoint_utils/helper_functions.py`
* `flashpoint_utils/user_input_parser.py` (the argparse configuration)

HTTP traffic is modelled by response oracles (`Nat → Resp`, the response
to the n-th attempt of a request); thread-pool completion order is an
explicit list of indices so that order-(in)dependence can be quantified.
-/

namespace FPV

/-- JSON values, the shape of Flashpoint API bodies.  Objects keep the
Python dict insertion order as an association list. -/
inductive Json where
  | str : String → Json
  | num : Int → Json
  | bool : Bool → Json
  | null : Json
  | arr : List Json → Json
  | obj : List (String × Json) → Json

/-- Python dict lookup `d[key]` on an insertion-ordered association list. -/
def lookupKey {α : Type} : List (String × α) → String → Option α
  | [], _ => none
  | (k, v) :: rest, key => if k = key then some v else lookupKey rest key

/-- Python dict write `d[key] = v`: replace in place when the key exists,
append at the end otherwise. -/
def setKey {α : Type} : List (String × α) → String → α → List (String × α)
  | [], key, v => [(key, v)]
  | (k, w) :: rest, key, v =>
      if k = key then (k, v) :: rest else (k, w) :: setKey rest key v

/-- The keys of a Python dict, in insertion order. -/
def keysOf {α : Type} (l : List (String × α)) : List String := l.map Prod.fst

/-- Field access `j[k]` on a JSON object (raises / yields nothing on
non-objects). -/
def jLookup : Json → String → Option Json
  | .obj fields, k => lookupKey fields k
  | _, _ => none

def asArr : Json → Option (List Json)
  | .arr xs => some xs
  | _ => none

def asStr : Json → Option String
  | .str s => some s
  | _ => none

def Json.isObj : Json → Bool
  | .obj _ => true
  | _ => false

/-- An HTTP response as seen through niquests: status code, the
Content-Type response header (absent headers model `None`), the body
parsed as JSON when it is valid JSON, and the raw body bytes. -/
structure Resp where
  status : Nat
  contentType : Option String
  jsonBody : Option Json
  content : List Nat

/-- A fetch item, the dictionary handed to `FlashpointAPI._fetch`:
method, url, correlation key (`query`), payload and headers.  The key
type is a parameter because `search_chat` correlates by query string
while the `search_media` image fetches correlate by hit index. -/
structure Item (κ : Type) where
  method : String
  url : String
  query : κ
  payload : List (String × Json)
  headers : List (String × String)

/-- Evaluation of `response.json()["hits"]["hits"]`: fails (raises)
when the body is not JSON or the nested keys are missing. -/
def getJsonHits (r : Resp) : Option (List Json) :=
  match r.jsonBody with
  | none => none
  | some body =>
    match jLookup body "hits" with
    | none => none
    | some h1 =>
      match jLookup h1 "hits" with
      | none => none
      | some h2 => asArr h2

/-- Substring containment on character lists, the Python `pat in s` test
for strings. -/
def containsSub (pat : List Char) : List Char → Bool
  | [] => pat.isEmpty
  | c :: rest => List.isPrefixOf pat (c :: rest) || containsSub pat rest

/-- The check `"application/json" in response.headers.get("Content-Type")`.
A missing header gives Python `None` and the membership test raises
`TypeError`, modelled by `none`. -/
def hasJsonContentType : Option String → Option Bool
  | none => none
  | some ct => some (containsSub "application/json".data ct.data)

/-- Hit counting in the 200 branch of `_fetch`: for JSON bodies the
length of `hits.hits` (raising when absent), otherwise the fixed count 1.
`none` models an exception inside the worker. -/
def hitsCount200 (r : Resp) : Option Nat :=
  match hasJsonContentType r.contentType with
  | none => none
  | some true => (getJsonHits r).map List.length
  | some false => some 1

/-- What `_fetch` hands back: either the `(query, response, hits_count)`
tuple, or the implicit `None` after the error branch `break`s, or an
exception raised inside the worker. -/
inductive FetchOut (κ : Type) where
  | tup : κ → Resp → Nat → FetchOut κ
  | noneReturn : FetchOut κ
  | raised : FetchOut κ

/-- Observable trace of one `_fetch` call: how many HTTP requests were
issued, the sleeps performed between attempts (`time.sleep(delay)`), the
returned value and whether the error branch displayed an error. -/
structure FetchTrace (κ : Type) where
  requests : Nat
  delays : List Nat
  out : FetchOut κ
  errorDisplayed : Bool

/-- One iteration of the `while retry_count <= self.max_retries` loop in
`_fetch`; `again d` means: sleep `d` seconds, then loop. -/
inductive FetchStepRes (κ : Type) where
  | done : FetchTrace κ → FetchStepRes κ
  | again : Nat → FetchStepRes κ

def fetchStep (oracle : Nat → Resp) (maxRetries : Nat) (key : κ)
    (attempt retryCount : Nat) : FetchStepRes κ :=
  let r := oracle attempt
  if r.status = 429 then
    if retryCount + 1 ≤ maxRetries then .again (3 ^ (retryCount + 1))
    else .done ⟨1, [], .tup key r 0, false⟩
  else if r.status = 200 then
    match hitsCount200 r with
    | some n => .done ⟨1, [], .tup key r n, false⟩
    | none => .done ⟨1, [], .raised, false⟩
  else .done ⟨1, [], .noneReturn, true⟩

/-- The retry loop of `_fetch`, driven by fuel.  The loop body only
repeats after a 429 that still has retries left, so `retryCount` grows
by one per repetition and `maxRetries` fuel always suffices; the fuel-0
fallback for `again` is unreachable from `fetch`. -/
def fetchAux (oracle : Nat → Resp) (maxRetries : Nat) (key : κ) :
    Nat → Nat → Nat → FetchTrace κ
  | 0, attempt, retryCount =>
    match fetchStep oracle maxRetries key attempt retryCount with
    | .done t => t
    | .again _ => ⟨1, [], .raised, false⟩
  | fuel + 1, attempt, retryCount =>
    match fetchStep oracle maxRetries key attempt retryCount with
    | .done t => t
    | .again d =>
      let t := fetchAux oracle maxRetries key fuel (attempt + 1) (retryCount + 1)
      ⟨t.requests + 1, d :: t.delays, t.out, t.errorDisplayed⟩

/-- `FlashpointAPI._fetch(item)`: the oracle gives the response of the
n-th HTTP attempt for this item. -/
def fetch (maxRetries : Nat) (it : Item κ) (oracle : Nat → Resp) : FetchTrace κ :=
  fetchAux oracle maxRetries it.query maxRetries 0 0

end FPV

namespace FPV

/-- Shifting a geometric delay list by one step. -/
theorem delays_shift (rc fuel : Nat) :
    3 ^ (rc + 1) :: (List.range fuel).map (fun i => 3 ^ (rc + 1 + 1 + i)) =
      (List.range (fuel + 1)).map (fun i => 3 ^ (rc + 1 + i)) := by
  rw [List.range_succ_eq_map, List.map_cons, List.map_map]
  congr 1
  apply List.map_congr_left
  intro i _
  simp only [Function.comp]
  congr 1
  omega

/-- Closed-form behaviour of the retry loop when every attempt is
rate-limited, generalized over the loop state. -/
theorem fetchAux_all429 {κ : Type} (oracle : Nat → Resp) (maxRetries : Nat) (key : κ)
    (h429 : ∀ n, (oracle n).status = 429) :
    ∀ fuel attempt retryCount, retryCount + fuel = maxRetries →
      fetchAux oracle maxRetries key fuel attempt retryCount =
        ⟨fuel + 1, (List.range fuel).map (fun i => 3 ^ (retryCount + 1 + i)),
         .tup key (oracle (attempt + fuel)) 0, false⟩ := by
  intro fuel
  induction fuel with
  | zero =>
    intro attempt retryCount hrc
    have hle : ¬ retryCount + 1 ≤ maxRetries := by omega
    simp [fetchAux, fetchStep, h429 attempt, hle]
  | succ fuel ih =>
    intro attempt retryCount hrc
    have hle : retryCount + 1 ≤ maxRetries := by omega
    have hrec := ih (attempt + 1) (retryCount + 1) (by omega)
    have h3 : attempt + 1 + fuel = attempt + (fuel + 1) := by omega
    simp only [fetchAux, fetchStep, h429 attempt, hle, if_true, if_pos, hrec, h3]
    rw [FetchTrace.mk.injEq]
    exact ⟨rfl, delays_shift retryCount fuel, rfl, rfl⟩

/-- C1: for a fetch item whose HTTP responses are all 429, the worker
issues the initial attempt plus exactly `max_retries` retries, sleeping
the strictly increasing delays 3^1, ..., 3^max_retries before the
successive attempts, and after the final 429 returns the last 429
response (with hit count 0) instead of raising. -/
theorem c1_fetch_all_429 {κ : Type} (it : Item κ) (oracle : Nat → Resp) (maxRetries : Nat)
    (h429 : ∀ n, (oracle n).status = 429) :
    fetch maxRetries it oracle =
      ⟨maxRetries + 1, (List.range maxRetries).map (fun i => 3 ^ (i + 1)),
       .tup it.query (oracle maxRetries) 0, false⟩ ∧
    List.Pairwise (· < ·) ((List.range maxRetries).map (fun i => 3 ^ (i + 1))) := by
  constructor
  · have h := fetchAux_all429 oracle maxRetries it.query h429 maxRetries 0 0 (by omega)
    rw [fetch, h]
    simp [Nat.add_comm]
  · refine List.Pairwise.map _ ?_ (List.pairwise_lt_range maxRetries)
    intro a b hab
    exact Nat.pow_lt_pow_right (by norm_num) (by omega)

/-- A fixed all-429 response used to witness C1. -/
def resp429 : Resp := ⟨429, some "application/json", none, []⟩

/-- A sample fetch item with a numeric correlation key. -/
def sampleItem : Item Nat :=
  ⟨"post", "https://fp.example/all/search", 0, [], []⟩

/-- Witness for C1 at max_retries = 2: 3 requests in total, sleeps of
3 and 9 seconds, and the third 429 response returned as a result. -/
theorem c1_witness :
    (∀ n : Nat, ((fun _ => resp429) n).status = 429) ∧
    fetch 2 sampleItem (fun _ => resp429) =
      ⟨2 + 1, (List.range 2).map (fun i => 3 ^ (i + 1)),
       .tup sampleItem.query ((fun _ => resp429) 2) 0, false⟩ ∧
    List.Pairwise (· < ·) ((List.range 2).map (fun i => 3 ^ (i + 1))) :=
  ⟨fun _ => rfl, c1_fetch_all_429 sampleItem (fun _ => resp429) 2 (fun _ => rfl)⟩

/-- C6: on a response that is neither 200 nor 429 the worker issues
exactly one HTTP request, sleeps no backoff delay, retries zero times,
displays an error for the item and falls off the loop returning
Python `None`. -/
theorem c6_fetch_hard_error {κ : Type} (it : Item κ) (oracle : Nat → Resp) (maxRetries : Nat)
    (h429 : (oracle 0).status ≠ 429) (h200 : (oracle 0).status ≠ 200) :
    fetch maxRetries it oracle = ⟨1, [], .noneReturn, true⟩ := by
  cases maxRetries with
  | zero => simp [fetch, fetchAux, fetchStep, h429, h200]
  | succ n => simp [fetch, fetchAux, fetchStep, h429, h200]

/-- A hard-error HTTP 500 response used to witness C6. -/
def resp500 : Resp := ⟨500, some "text/html", none, []⟩

/-- Witness for C6 at a concrete 500 response. -/
theorem c6_witness :
    ((fun _ => resp500) 0).status ≠ 429 ∧ ((fun _ => resp500) 0).status ≠ 200 ∧
    fetch 3 sampleItem (fun _ => resp500) = ⟨1, [], .noneReturn, true⟩ :=
  ⟨by decide, by decide,
   c6_fetch_hard_error sampleItem (fun _ => resp500) 3 (by decide) (by decide)⟩

/-- The single-quote character, written by code point to keep literals
plain. -/
def quoteChar : Char := Char.ofNat 39

/-- A one-character string holding a single quote. -/
def squote : String := String.singleton quoteChar

/-- `helper_functions.valid_query`: when the user wrapped the query in a
single-quote pair, `user_query[1:-1]` strips the outer characters;
otherwise the query is returned untouched. -/
def valid_query (q : String) : String :=
  if List.isPrefixOf squote.data q.data && List.isSuffixOf squote.data q.data then
    String.mk ((q.data.drop 1).dropLast)
  else q

/-- The base64 alphabet. -/
def b64Table : List Char :=
  "ABCDEFGHIJKLMNOPQRSTUVWXYZabcdefghijklmnopqrstuvwxyz0123456789+/".data

def b64Char (n : Nat) : Char := b64Table.getD n (Char.ofNat 65)

/-- Standard base64 of a byte list (RFC 4648, with padding), the work of
`base64.b64encode`. -/
def b64Encode : List Nat → List Char
  | [] => []
  | [b1] => [b64Char (b1 / 4), b64Char (b1 % 4 * 16), Char.ofNat 61, Char.ofNat 61]
  | [b1, b2] =>
      [b64Char (b1 / 4), b64Char (b1 % 4 * 16 + b2 / 16),
       b64Char (b2 % 16 * 4), Char.ofNat 61]
  | b1 :: b2 :: b3 :: rest =>
      b64Char (b1 / 4) :: b64Char (b1 % 4 * 16 + b2 / 16) ::
      b64Char (b2 % 16 * 4 + b3 / 64) :: b64Char (b3 % 64) :: b64Encode rest

/-- `helper_functions.create_b64_image_string`: raw image bytes to a
base64 string. -/
def create_b64_image_string (raw : List Nat) : String := String.mk (b64Encode raw)

/-- `helper_functions.format_b64_image_for_dataframe`: wrap a base64
string in an HTML img tag with a data URI. -/
def format_b64_image_for_dataframe (b64ImageString : String) : String :=
  "<img src=" ++ squote ++ "data:image/jpeg;base64," ++ b64ImageString ++ squote ++ " />"

/-- `FlashpointAPI.payload_template` (the fixed search payload fields). -/
def payloadTemplate : List (String × Json) :=
  [("collapse_field", .str "media.sha1.keyword"),
   ("from", .num 0),
   ("track_total_hits", .num 10000),
   ("traditional_query", .bool true),
   ("_source_includes", .arr
     [.str "type", .str "value", .str "basetypes", .str "fpid", .str "sort_date",
      .str "breach", .str "domain", .str "affected_domain", .str "email",
      .str "password", .str "username", .str "is_fresh",
      .str "credential_record_fpid", .str "password_complexity",
      .str "ransomer.fpid", .str "ransomer.names", .str "container.fpid",
      .str "container.name", .str "container.title", .str "container.type",
      .str "container.native_id", .str "container.container.native_id",
      .str "container.container.title", .str "body.text/plain",
      .str "account_organization", .str "infected_host_attributes",
      .str "cookies", .str "email_domain", .str "prices", .str "site.title",
      .str "site.source_uri", .str "site_actor.native_id",
      .str "site_actor.names", .str "site_actor.username", .str "raw_href",
      .str "title", .str "base.title", .str "card_type", .str "bin",
      .str "source_uri", .str "attack_ids", .str "category",
      .str "geolocation", .str "media.caption", .str "media.file_name",
      .str "media.fpid", .str "media.media_type", .str "media.mime_type",
      .str "media.phash", .str "media.sha1", .str "media.size",
      .str "media_v2", .str "media.storage_uri",
      .str "enrichments.card-numbers.card-numbers.bin",
      .str "enrichments.v1.ip_addresses.ip_address",
      .str "enrichments.v1.email_addresses.email_address",
      .str "enrichments.v1.urls.domain",
      .str "enrichments.v1.monero_addresses.monero_address",
      .str "enrichments.v1.ethereum_addresses.ethereum_address",
      .str "enrichments.v1.bitcoin_addresses.bitcoin_address",
      .str "enrichments.v1.social_media.handle",
      .str "enrichments.v1.social_media.site"]),
   ("highlight", .bool false),
   ("fields", .arr
     [.str "enrichments", .str "body.text/html+sanitized", .str "body.text/plain",
      .str "user.names.handle", .str "site_actor.names.handle",
      .str "site_actor.names.aliases", .str "site_actor.fpid", .str "title",
      .str "container.fpid", .str "container.title",
      .str "container.container.title", .str "site.source_uri",
      .str "site.title", .str "native_id", .str "media_v2"]),
   ("sort", .arr [.str "sort_date:desc"])]

/-- Python `base.update(upd)` / `{**base, **upd}` on insertion-ordered
dicts: fold the updates into the base dict. -/
def dictUpdate (base upd : List (String × Json)) : List (String × Json) :=
  upd.foldl (fun acc kv => setKey acc kv.1 kv.2) base

/-- The `search_chat` query expression, the f-string
`+({q}) +sort_date:[{date_start} TO {date_end}] +basetypes:((chat AND message))`. -/
def chatQueryExpr (q ds de : String) : String :=
  "+(" ++ q ++ ") +sort_date:[" ++ ds ++ " TO " ++ de ++
    "] +basetypes:((chat AND message))"

/-- The `search_media` query expression: the chat expression followed by
the two media `_exists_` filters (two adjacent f-string literals in the
source). -/
def mediaQueryExpr (q ds de : String) : String :=
  "+(" ++ q ++ ") +sort_date:[" ++ ds ++ " TO " ++ de ++
    "] +basetypes:((chat AND message))" ++
    " +_exists_:media.storage_uri +_exists_:media.image_enrichment.enrichments.v1.image-analysis"

/-- Headers of the search calls. -/
def jsonHeaders (token : String) : List (String × String) :=
  [("Authorization", "Bearer " ++ token), ("Content-Type", "application/json")]

/-- Headers of the media-asset calls. -/
def imageHeaders (token : String) : List (String × String) :=
  [("Authorization", "Bearer " ++ token), ("Content-Type", "image/jpeg")]

/-- The hard-coded media assets endpoint (`self.media_assets_url`). -/
def mediaAssetsUrl : String := "https://fp.tools/ui/v4/media/assets"

/-- The `search_media` payload: `{**payload_template, **payload}` with
`size` and the query expression. -/
def mediaPayload (q ds de : String) (limit : Int) : List (String × Json) :=
  dictUpdate payloadTemplate [("size", .num limit), ("query", .str (mediaQueryExpr q ds de))]

/-- The primary `search_media` fetch item. -/
def searchMediaPrimaryItem (host token q ds de : String) (limit : Int) : Item String :=
  { method := "post", url := "https://" ++ host ++ "/all/search", query := q,
    payload := mediaPayload q ds de limit, headers := jsonHeaders token }

/-- One `search_chat` payload: `{"size": limit, "query": ...}` then
`payload.update(self.payload_template)`. -/
def chatPayload (q ds de : String) (limit : Int) : List (String × Json) :=
  dictUpdate [("size", .num limit), ("query", .str (chatQueryExpr q ds de))] payloadTemplate

/-- The fetch items built by `FlashpointAPI.search_chat`, one per query
term, all sharing limit and date range. -/
def searchChatItems (host token : String) (queries : List String) (limit : Int)
    (ds de : String) : List (Item String) :=
  queries.map (fun q =>
    { method := "post", url := "https://" ++ host ++ "/all/search", query := q,
      payload := chatPayload q ds de limit, headers := jsonHeaders token })

/-- The fetch items built by `FlashpointAPI.get_image`.  The source
iterates `for u in uri` but then uses `uri` itself (never `u`) for both
the correlation key and the `asset_id` payload; with the string argument
delivered by the argparse layer this makes one item per character. -/
def getImageItems (token uri : String) : List (Item String) :=
  uri.data.map (fun _u =>
    { method := "get", url := mediaAssetsUrl, query := uri,
      payload := [("asset_id", Json.str uri)], headers := imageHeaders token })

/-- Looking up the key just written by a dict write finds the new value. -/
theorem lookupKey_setKey_self {α : Type} (l : List (String × α)) (k : String) (v : α) :
    lookupKey (setKey l k v) k = some v := by
  induction l with
  | nil => simp [setKey, lookupKey]
  | cons kv rest ih =>
    by_cases h : kv.1 = k
    · simp [setKey, lookupKey, h]
    · obtain ⟨k', w⟩ := kv
      simp only at h
      simp [setKey, lookupKey, h, ih]

/-- C8: a query wrapped in a single-quote pair has exactly the outer
quote pair stripped, and the stripped query text appears verbatim,
unescaped, inside the query expression stored in the upstream
search_media payload. -/
theorem c8_quote_roundtrip (t ds de : String) (limit : Int) :
    valid_query (squote ++ t ++ squote) = t ∧
    lookupKey (mediaPayload (valid_query (squote ++ t ++ squote)) ds de limit) "query" =
      some (.str (mediaQueryExpr t ds de)) ∧
    ∃ pre post, mediaQueryExpr t ds de = pre ++ t ++ post := by
  have hstrip : valid_query (squote ++ t ++ squote) = t := by
    obtain ⟨l⟩ := t
    simp [valid_query, squote, String.singleton, String.data_append,
      List.isPrefixOf, List.isSuffixOf]
  refine ⟨hstrip, ?_, ?_⟩
  · rw [hstrip]
    exact lookupKey_setKey_self _ "query" _
  · exact ⟨"+(", ") +sort_date:[" ++ ds ++ " TO " ++ de ++
      "] +basetypes:((chat AND message))" ++
      " +_exists_:media.storage_uri +_exists_:media.image_enrichment.enrichments.v1.image-analysis",
      by simp [mediaQueryExpr, String.append_assoc]⟩

/-- One worker completion inside `_concurrent_fetches`: look the future
up, then `query, result, hits_count = future.result()`.  A worker that
fell off the error branch returned `None`, and unpacking it raises a
`TypeError` that aborts the whole batch; a worker that raised re-raises
at `future.result()`. -/
def concFetchAux {κ : Type} (maxRetries : Nat) (items : List (Item κ))
    (oracleFor : Nat → Nat → Resp) :
    List Nat → List (κ × Resp × Nat) → Except String (List (κ × Resp × Nat))
  | [], acc => .ok acc
  | i :: rest, acc =>
    match items.get? i with
    | none => .error "missing future"
    | some it =>
      match (fetch maxRetries it (oracleFor i)).out with
      | .tup k r h => concFetchAux maxRetries items oracleFor rest (acc ++ [(k, r, h)])
      | .noneReturn => .error "TypeError: cannot unpack non-sequence NoneType"
      | .raised => .error "exception raised in worker"

/-- `FlashpointAPI._concurrent_fetches`: run every item through `_fetch`
on a worker pool and collect the `(query, response, hits_count)` tuples
in completion order.  `order` lists the item indices in the order
`as_completed` yields them; `oracleFor i` is the response oracle of the
i-th item. -/
def concurrentFetches {κ : Type} (maxRetries : Nat) (items : List (Item κ))
    (oracleFor : Nat → Nat → Resp) (order : List Nat) :
    Except String (List (κ × Resp × Nat)) :=
  concFetchAux maxRetries items oracleFor order []

/-- One step of a JSONPath expression, the constructs used by the fixed
path lists (`jsonpath_ng`): a field access, a numeric index, or the `[*]`
wildcard. -/
inductive JStep where
  | field : String → JStep
  | index : Nat → JStep
  | star : JStep
deriving DecidableEq

/-- A parsed JSONPath: the result of `jp.parse` on the path strings of
the fixed per-command path lists. -/
abbrev JPath := List JStep

/-- Matching of one JSONPath step against a JSON node. -/
def jfindStep : JStep → Json → List Json
  | .field k, .obj fields =>
    match lookupKey fields k with
    | some v => [v]
    | none => []
  | .field _, _ => []
  | .index n, .arr xs =>
    match xs.get? n with
    | some v => [v]
    | none => []
  | .index _, _ => []
  | .star, .arr xs => xs
  | .star, .obj fields => fields.map Prod.snd
  | .star, _ => []

/-- `jp.parse(path).find(json)`: the matched nodes, in document order. -/
def jfind (p : JPath) (j : Json) : List Json :=
  p.foldl (fun acc s => acc.flatMap (jfindStep s)) [j]

/-- Option-valued map used for fallible per-element work (join of
matches, per-hit flattening). -/
def mapOpt {α β : Type} (f : α → Option β) : List α → Option (List β)
  | [] => some []
  | a :: l =>
    match f a with
    | none => none
    | some b =>
      match mapOpt f l with
      | none => none
      | some bs => some (b :: bs)

/-- `ResponseParser._find_value_by_path`:
`(", ").join(match.value for match in query.find(json))`.  The join
raises a `TypeError` (modelled by `none`) when a matched value is not a
string. -/
def findValueByPath (p : JPath) (j : Json) : Option String :=
  (mapOpt asStr (jfind p j)).map (fun vs => String.intercalate ", " vs)

/-- A flattened row: a Python dict from column name to string value. -/
abbrev Row := List (String × String)

/-- The path string `_source.body.['text/plain']`, assembled around the
quote character. -/
def textPlainPathStr : String := "_source.body.[" ++ squote ++ "text/plain" ++ squote ++ "]"

/-- The fixed path list of `ResponseParser.search_chat`, each source
path string paired with its parse. -/
def chatPaths : List (String × JPath) :=
  [("_source.fpid", [.field "_source", .field "fpid"]),
   ("_source.sort_date", [.field "_source", .field "sort_date"]),
   ("_source.title", [.field "_source", .field "title"]),
   (textPlainPathStr, [.field "_source", .field "body", .field "text/plain"]),
   ("_source.enrichments.v1.social_media[*].handle",
    [.field "_source", .field "enrichments", .field "v1", .field "social_media",
     .star, .field "handle"]),
   ("_source.enrichments.v1.social_media[*].site",
    [.field "_source", .field "enrichments", .field "v1", .field "social_media",
     .star, .field "site"]),
   ("_source.enrichments.v1.urls[*].domain",
    [.field "_source", .field "enrichments", .field "v1", .field "urls",
     .star, .field "domain"]),
   ("_source.container.fpid", [.field "_source", .field "container", .field "fpid"]),
   ("_source.site_actor.names.aliases[*]",
    [.field "_source", .field "site_actor", .field "names", .field "aliases", .star]),
   ("_source.site_actor.native_id",
    [.field "_source", .field "site_actor", .field "native_id"]),
   ("_source.site_actor.username",
    [.field "_source", .field "site_actor", .field "username"]),
   ("_source.container.native_id",
    [.field "_source", .field "container", .field "native_id"])]

/-- The per-hit loop body of `ResponseParser.search_chat`: extract every
path of the list into the row. -/
def chatFlattenAux (hit : Json) : List (String × JPath) → Row → Option Row
  | [], row => some row
  | (s, p) :: rest, row =>
    match findValueByPath p hit with
    | none => none
    | some v => chatFlattenAux hit rest (setKey row s v)

/-- Flatten one chat hit: the row starts as
`{"search term": query}` and then gains one column per path. -/
def searchChatFlattenHit (q : String) (hit : Json) : Option Row :=
  chatFlattenAux hit chatPaths [("search term", q)]

/-- The response loop of `ResponseParser.search_chat`: 200 responses
contribute their flattened hits to the row list, every other response
puts its originating query on the failure list (displayed to the user at
the end).  JSON or join failures raise out of the parser. -/
def parseSearchChatAux : List (String × Resp × Nat) → List Row → List String →
    Except String (List Row × List String)
  | [], rows, failed => .ok (rows, failed)
  | (q, r, _) :: rest, rows, failed =>
    if r.status = 200 then
      match getJsonHits r with
      | none => .error "KeyError while reading hits"
      | some hits =>
        match mapOpt (searchChatFlattenHit q) hits with
        | none => .error "TypeError while joining matches"
        | some newRows => parseSearchChatAux rest (rows ++ newRows) failed
    else parseSearchChatAux rest rows (failed ++ [q])

/-- `ResponseParser.search_chat` over the whole batch result. -/
def parseSearchChat (responses : List (String × Resp × Nat)) :
    Except String (List Row × List String) :=
  parseSearchChatAux responses [] []

/-- The whole `search_chat` flow: build the items, dispatch them
concurrently, then parse the batch result. -/
def searchChatPipeline (host token : String) (queries : List String) (limit : Int)
    (ds de : String) (maxRetries : Nat) (oracleFor : Nat → Nat → Resp)
    (order : List Nat) : Except String (List Row × List String) :=
  match concurrentFetches maxRetries (searchChatItems host token queries limit ds de)
      oracleFor order with
  | .error e => .error e
  | .ok rs => parseSearchChat rs

/-- A chat hit with a few populated fields. -/
def chatHitA : Json :=
  .obj [("_source", .obj
    [("fpid", .str "f1"), ("sort_date", .str "2024-01-02"), ("title", .str "hello")])]

/-- A successful chat search response holding one hit. -/
def respChat200 : Resp :=
  ⟨200, some "application/json",
   some (.obj [("hits", .obj [("total", .num 1), ("hits", .arr [chatHitA])])]), []⟩

/-- Per-item oracle of the C2 failing input: the first query gets a 200,
the second a hard 500 on every attempt. -/
def c2Oracle : Nat → Nat → Resp :=
  fun i _ => if i = 0 then respChat200 else resp500

/-- C2 failing input, evaluated: in the batch
`search_chat -l 5 -s 2024-01-01 -e 2024-01-31 -q alpha -q beta` where
alpha answers HTTP 200 and beta HTTP 500, the worker for beta returns
`None`, `_concurrent_fetches` raises a `TypeError` unpacking it, and the
batch aborts: the rows of alpha are lost and no failure list is
produced, contrary to the claimed non-fatal partition. -/
theorem c2_chat_500_crashes_batch :
    searchChatPipeline "fp.example" "tok" ["alpha", "beta"] 5 "2024-01-01" "2024-01-31"
        3 c2Oracle [0, 1] =
      .error "TypeError: cannot unpack non-sequence NoneType" := by
  rfl

/-- C4 failing input: `get_image -u storage_uri_123` hands the string
`storage_uri_123` to `get_image`, which builds one fetch item per
character of the string, 15 in total, every one carrying the whole
string as its asset identifier, instead of the single item the claim
requires. -/
theorem c4_get_image_one_item_per_char :
    (getImageItems "tok" "storage_uri_123").length = 15 ∧
    (getImageItems "tok" "storage_uri_123").map (fun it => lookupKey it.payload "asset_id") =
      List.replicate 15 (some (Json.str "storage_uri_123")) := by
  constructor
  · rfl
  · rfl

/-- A calendar date as produced by `datetime.strptime(..., "%Y-%m-%d").date()`. -/
structure Date where
  year : Nat
  month : Nat
  day : Nat
deriving DecidableEq

def isLeapYear (y : Nat) : Bool :=
  (y % 4 = 0 && y % 100 ≠ 0) || y % 400 = 0

def daysInMonth (y m : Nat) : Nat :=
  if m = 2 then (if isLeapYear y then 29 else 28)
  else if m = 4 ∨ m = 6 ∨ m = 9 ∨ m = 11 then 30
  else 31

def digitsToNat (l : List Char) : Nat :=
  l.foldl (fun acc c => acc * 10 + (c.toNat - 48)) 0

def allDigits (l : List Char) : Bool := l.all Char.isDigit

/-- ASCII lower-casing of one character. -/
def lowerChar (c : Char) : Char :=
  if 65 ≤ c.toNat ∧ c.toNat ≤ 90 then Char.ofNat (c.toNat + 32) else c

/-- Splitting a character list at every dash, the field separation of
the `%Y-%m-%d` format. -/
def splitDash : List Char → List (List Char)
  | [] => [[]]
  | c :: rest =>
    if c = Char.ofNat 45 then [] :: splitDash rest
    else
      match splitDash rest with
      | [] => [[c]]
      | g :: gs => (c :: g) :: gs

/-- `helper_functions.valid_date_format`: the literal "now" (case
insensitive) maps to the current date, otherwise the string must parse
under `%Y-%m-%d` (4-digit year, 1-2 digit month 1-12, 1-2 digit day
valid for the month), else the argparse type check fails. -/
def valid_date_format (today : Date) (s : String) : Option Date :=
  if s.data.map lowerChar = "now".data then some today
  else
    match splitDash s.data with
    | [ys, ms, dsn] =>
      if ys.length = 4 ∧ allDigits ys = true ∧
          1 ≤ ms.length ∧ ms.length ≤ 2 ∧ allDigits ms = true ∧
          1 ≤ dsn.length ∧ dsn.length ≤ 2 ∧ allDigits dsn = true then
        if 1 ≤ digitsToNat ms ∧ digitsToNat ms ≤ 12 ∧ 1 ≤ digitsToNat dsn ∧
            digitsToNat dsn ≤ daysInMonth (digitsToNat ys) (digitsToNat ms) then
          some ⟨digitsToNat ys, digitsToNat ms, digitsToNat dsn⟩
        else none
      else none
    | _ => none

/-- Python `int(s)` as applied by argparse to the limit flag: an
optional sign followed by digits. -/
def parseIntPy (s : String) : Option Int :=
  match s.data with
  | [] => none
  | c :: rest =>
    if c = Char.ofNat 45 then
      if rest ≠ [] ∧ allDigits rest = true then some (-(digitsToNat rest : Int))
      else none
    else if c = Char.ofNat 43 then
      if rest ≠ [] ∧ allDigits rest = true then some (digitsToNat rest : Int)
      else none
    else if allDigits (c :: rest) = true then some (digitsToNat (c :: rest) : Int)
    else none

/-- The validated request the `search_media` subparser produces. -/
structure SearchMediaRequest where
  limit : Int
  date_start : Date
  date_end : Date
  query : String
  images : Bool
deriving DecidableEq

/-- The validation performed by the `search_media` subparser of
`UserInputParser`: `-l` goes through `int`, `-s` and `-e` through
`valid_date_format` (with `-e` defaulting to the string "now"), `-q`
through `valid_query`.  Tokenization and flag matching of argparse are
abstracted away: the arguments are the raw per-flag strings, `none`
meaning an omitted optional flag.  No cross-field check exists in the
source. -/
def buildSearchMediaRequest (today : Date) (limitArg : Option String)
    (dateStartArg : String) (dateEndArg : Option String) (queryArg : String)
    (imagesArg : Bool) : Option SearchMediaRequest :=
  match (match limitArg with | none => some (25 : Int) | some s => parseIntPy s),
      valid_date_format today dateStartArg,
      valid_date_format today (dateEndArg.getD "now") with
  | some limit, some ds, some de =>
    some ⟨limit, ds, de, valid_query queryArg, imagesArg⟩
  | _, _, _ => none

/-- Chronological order on dates. -/
def dateLe (a b : Date) : Bool :=
  decide (a.year < b.year) ||
    (decide (a.year = b.year) &&
      (decide (a.month < b.month) ||
        (decide (a.month = b.month) && decide (a.day ≤ b.day))))

/-- Well-formedness of a calendar date. -/
def dateWF (d : Date) : Prop :=
  1 ≤ d.month ∧ d.month ≤ 12 ∧ 1 ≤ d.day ∧ d.day ≤ daysInMonth d.year d.month

instance (d : Date) : Decidable (dateWF d) := by
  unfold dateWF
  infer_instance

/-- C5 counterexample: the raw input
`search_media -l 0 -s 2024-12-31 -e 2024-01-01 -q` followed by an empty
single-quoted query is accepted by validation (no error, a request is
produced), yet its query is empty, its limit is not positive and its
start date is after its end date — all three invariants of the claim are
violated by an accepted request. -/
theorem c5_counterexample :
    ∃ r, buildSearchMediaRequest ⟨2025, 1, 1⟩ (some "0") "2024-12-31"
        (some "2024-01-01") (squote ++ squote) true = some r ∧
      r.query = "" ∧ r.limit ≤ 0 ∧ dateLe r.date_start r.date_end = false :=
  ⟨⟨0, ⟨2024, 12, 31⟩, ⟨2024, 1, 1⟩, "", true⟩, by rfl, rfl, by decide, by decide⟩

/-- Dates accepted by `valid_date_format` are well-formed calendar
dates (assuming the ambient current date is). -/
theorem valid_date_format_wf (today : Date) (s : String) (d : Date)
    (htoday : dateWF today) (h : valid_date_format today s = some d) : dateWF d := by
  unfold valid_date_format at h
  split at h
  · cases h
    exact htoday
  · split at h
    · split at h
      · split at h
        · cases h
          rename_i hrange
          exact ⟨hrange.1, hrange.2.1, hrange.2.2.1, hrange.2.2.2⟩
        · cases h
      · cases h
    · cases h

/-- C5 amended: validation accepts exactly the inputs whose individual
fields parse (limit an integer, each date the literal "now" or a valid
%Y-%m-%d calendar date); every accepted request therefore carries
well-formed calendar dates, but no cross-field or positivity invariant
is enforced: empty queries, non-positive limits and date_start after
date_end are all accepted. -/
theorem c5_amended_accepted_dates_wf (today : Date) (limitArg : Option String)
    (dateStartArg : String) (dateEndArg : Option String) (queryArg : String)
    (imagesArg : Bool) (r : SearchMediaRequest) (htoday : dateWF today)
    (h : buildSearchMediaRequest today limitArg dateStartArg dateEndArg queryArg
        imagesArg = some r) :
    dateWF r.date_start ∧ dateWF r.date_end := by
  unfold buildSearchMediaRequest at h
  split at h
  · rename_i limit ds de hlim hds hde
    cases h
    exact ⟨valid_date_format_wf today dateStartArg ds htoday hds,
           valid_date_format_wf today (dateEndArg.getD "now") de htoday hde⟩
  · cases h

/-- Evaluation of `hit["_source"]["media"]["storage_uri"]` when building
the secondary image fetches of `search_media`; a missing key raises. -/
def storageUriOf (hit : Json) : Option Json :=
  match jLookup hit "_source" with
  | none => none
  | some src =>
    match jLookup src "media" with
    | none => none
    | some media => jLookup media "storage_uri"

/-- One secondary image fetch item: the correlation key (`query`) is the
index of the hit inside `hits.hits`, the payload carries the storage URI
as `asset_id`. -/
def imageItemFor (token : String) (idx : Nat) (storage : Json) : Item Nat :=
  { method := "get", url := mediaAssetsUrl, query := idx,
    payload := [("asset_id", storage)], headers := imageHeaders token }

/-- The payload-building loop of the `images` branch of `search_media`:
one item per hit, indexed by enumeration order. -/
def buildImageItems (token : String) (hits : List Json) : Option (List (Item Nat)) :=
  mapOpt (fun iv => (storageUriOf iv.2).map (imageItemFor token iv.1)) hits.enum

/-- Python `hit.update({k: v})` on a hit.  Non-dict hits raise in the
source; the pass-through branch here is unreachable under the theorems,
whose hypotheses force every hit to be an object. -/
def jUpdate (j : Json) (k : String) (v : Json) : Json :=
  match j with
  | .obj fields => .obj (setKey fields k v)
  | other => other

/-- In-place assignment to position `n` of a Python list. -/
def modifyAt {α : Type} : List α → Nat → (α → α) → List α
  | [], _, _ => []
  | x :: xs, 0, f => f x :: xs
  | x :: xs, n + 1, f => x :: modifyAt xs n f

/-- The merged image value:
`create_b64_image_string(img_response[1].content)`. -/
def imageContentOf (r : Resp) : Json := .str (create_b64_image_string r.content)

/-- The merge loop of `search_media`: for every image response, update
the hit at the response correlation index with its `image_content`. -/
def mergeImages (hits : List Json) (imageResponses : List (Nat × Resp × Nat)) : List Json :=
  imageResponses.foldl
    (fun hs ir => modifyAt hs ir.1 (fun hit => jUpdate hit "image_content" (imageContentOf ir.2.1)))
    hits

/-- Transformation of the value stored under one key of a dict, leaving
every other entry untouched. -/
def condReplace {α : Type} (k : String) (t : α → α) (kv : String × α) : String × α :=
  if kv.1 = k then (kv.1, t kv.2) else kv

/-- Writing the merged hit list back into the parsed body before it is
re-serialized into `response._content`: the value under
`body["hits"]["hits"]` becomes the merged array. -/
def jsonReplaceHits (b : Json) (merged : List Json) : Json :=
  match b with
  | .obj fields =>
    .obj (fields.map (condReplace "hits" (fun h1 =>
      match h1 with
      | .obj inner => Json.obj (inner.map (condReplace "hits" (fun _ => Json.arr merged)))
      | other => other)))
  | other => other

/-- What `FlashpointAPI.search_media` hands back: the
`(query, response, hits_count)` tuple, plus (for observability) the list
of secondary image fetch items it dispatched. -/
structure MediaResult where
  key : String
  resp : Resp
  hitsCount : Nat
  secondaryItems : List (Item Nat)

/-- `FlashpointAPI.search_media`: one primary search fetch; when
`images` is set, extract a storage URI per hit, dispatch one secondary
GET per hit keyed by the hit index, and merge each base64 image payload
back into the hit at its correlation index before re-serializing the
body. -/
def search_media (host token q ds de : String) (limit : Int) (images : Bool)
    (maxRetries : Nat) (primaryOracle : Nat → Resp)
    (secondaryOracleFor : Nat → Nat → Resp) (order : List Nat) :
    Except String MediaResult :=
  match (fetch maxRetries (searchMediaPrimaryItem host token q ds de limit) primaryOracle).out with
  | .noneReturn => .error "TypeError: NoneType is not subscriptable"
  | .raised => .error "exception raised in worker"
  | .tup k r hc =>
    if images then
      match getJsonHits r with
      | none => .error "KeyError while reading hits"
      | some hits =>
        match buildImageItems token hits with
        | none => .error "KeyError while reading storage_uri"
        | some payloadItems =>
          match concurrentFetches maxRetries payloadItems secondaryOracleFor order with
          | .error e => .error e
          | .ok imageResponses =>
            .ok ⟨k, { r with jsonBody :=
                        r.jsonBody.map (fun b => jsonReplaceHits b (mergeImages hits imageResponses)) },
                 hc, payloadItems⟩
    else .ok ⟨k, r, hc, []⟩

/-- The path string
`_source.media_v2[0].image_enrichment.enrichments.v1.image-analysis.text[0].value`. -/
def mediaV2PathStr : String :=
  "_source.media_v2[0].image_enrichment.enrichments.v1.image-analysis.text[0].value"

/-- The fixed path list of `ResponseParser.search_media`, each source
path string paired with its parse. -/
def mediaPathsP : List (String × JPath) :=
  [("image_content", [.field "image_content"]),
   ("_source.sort_date", [.field "_source", .field "sort_date"]),
   ("_source.title", [.field "_source", .field "title"]),
   ("_source.media.fpid", [.field "_source", .field "media", .field "fpid"]),
   (textPlainPathStr, [.field "_source", .field "body", .field "text/plain"]),
   ("_source.enrichments.v1.social_media[*].handle",
    [.field "_source", .field "enrichments", .field "v1", .field "social_media",
     .star, .field "handle"]),
   ("_source.enrichments.v1.social_media[*].site",
    [.field "_source", .field "enrichments", .field "v1", .field "social_media",
     .star, .field "site"]),
   ("_source.enrichments.v1.urls[*].domain",
    [.field "_source", .field "enrichments", .field "v1", .field "urls",
     .star, .field "domain"]),
   ("_source.media.md5", [.field "_source", .field "media", .field "md5"]),
   ("_source.media.sha1", [.field "_source", .field "media", .field "sha1"]),
   ("_source.media.phash", [.field "_source", .field "media", .field "phash"]),
   ("_source.container.fpid", [.field "_source", .field "container", .field "fpid"]),
   ("_source.media.storage_uri", [.field "_source", .field "media", .field "storage_uri"]),
   ("_source.site_actor.names.aliases[*]",
    [.field "_source", .field "site_actor", .field "names", .field "aliases", .star]),
   ("_source.site_actor.native_id",
    [.field "_source", .field "site_actor", .field "native_id"]),
   (mediaV2PathStr,
    [.field "_source", .field "media_v2", .index 0, .field "image_enrichment",
     .field "enrichments", .field "v1", .field "image-analysis", .field "text",
     .index 0, .field "value"])]

/-- The per-hit loop body of `ResponseParser.search_media`: every
iteration re-writes the `query_term` column and adds the path column
(`row_to_add.update({"query_term": ..., path: ...})`). -/
def mediaFlattenAux (q : String) (hit : Json) : List (String × JPath) → Row → Option Row
  | [], row => some row
  | (s, p) :: rest, row =>
    match findValueByPath p hit with
    | none => none
    | some v => mediaFlattenAux q hit rest (setKey (setKey row "query_term" q) s v)

/-- Flatten one media hit into a row, starting from the empty dict. -/
def searchMediaFlattenHit (q : String) (hit : Json) : Option Row :=
  mediaFlattenAux q hit mediaPathsP []

/-- `ResponseParser.search_media`: one flattened row per hit of the
response body. -/
def parseSearchMedia (key : String) (r : Resp) : Except String (List Row) :=
  match getJsonHits r with
  | none => .error "KeyError while reading hits"
  | some hits =>
    match mapOpt (searchMediaFlattenHit key) hits with
    | none => .error "TypeError while joining matches"
    | some rows => .ok rows

/-- Witness for the amended C5 theorem at the counterexample input. -/
theorem c5_amended_witness :
    dateWF (⟨2025, 1, 1⟩ : Date) ∧
    buildSearchMediaRequest ⟨2025, 1, 1⟩ (some "0") "2024-12-31" (some "2024-01-01")
        (squote ++ squote) true =
      some ⟨0, ⟨2024, 12, 31⟩, ⟨2024, 1, 1⟩, "", true⟩ ∧
    (dateWF (⟨2024, 12, 31⟩ : Date) ∧ dateWF (⟨2024, 1, 1⟩ : Date)) :=
  ⟨by decide, by rfl,
   c5_amended_accepted_dates_wf ⟨2025, 1, 1⟩ (some "0") "2024-12-31"
     (some "2024-01-01") (squote ++ squote) true
     ⟨0, ⟨2024, 12, 31⟩, ⟨2024, 1, 1⟩, "", true⟩ (by decide) (by rfl)⟩

/-- Dict writes leave the other keys untouched. -/
theorem lookupKey_setKey_ne {α : Type} (l : List (String × α)) (k k' : String) (v : α)
    (h : k' ≠ k) : lookupKey (setKey l k v) k' = lookupKey l k' := by
  induction l with
  | nil =>
    have hne : ¬ k = k' := fun hh => h hh.symm
    simp [setKey, lookupKey, hne]
  | cons kv rest ih =>
    obtain ⟨k0, w⟩ := kv
    by_cases h0 : k0 = k
    · subst h0
      have hne : ¬ k0 = k' := fun hh => h hh.symm
      simp [setKey, lookupKey, hne]
    · simp only [setKey, if_neg h0]
      by_cases h1 : k0 = k'
      · simp [lookupKey, h1]
      · simp [lookupKey, h1, ih]

/-- A key is absent from a dict exactly when lookup misses. -/
theorem lookupKey_eq_none_iff {α : Type} (l : List (String × α)) (k : String) :
    lookupKey l k = none ↔ k ∉ keysOf l := by
  induction l with
  | nil => simp [lookupKey, keysOf]
  | cons kv rest ih =>
    obtain ⟨k0, w⟩ := kv
    by_cases h0 : k0 = k
    · subst h0
      simp [lookupKey, keysOf]
    · have hne : ¬ k = k0 := fun hh => h0 hh.symm
      simp [lookupKey, keysOf, h0, hne, ih]

/-- Writing an absent key appends it at the end of the dict. -/
theorem setKey_not_mem {α : Type} (l : List (String × α)) (k : String) (v : α)
    (h : k ∉ keysOf l) : setKey l k v = l ++ [(k, v)] := by
  induction l with
  | nil => simp [setKey]
  | cons kv rest ih =>
    obtain ⟨k0, w⟩ := kv
    simp only [keysOf, List.map_cons, List.mem_cons] at h
    push_neg at h
    have hne : ¬ k0 = k := fun hh => h.1 hh.symm
    simp [setKey, hne, ih (by simpa [keysOf] using h.2)]

/-- Writing a present key leaves the key list unchanged. -/
theorem keysOf_setKey_mem {α : Type} (l : List (String × α)) (k : String) (v : α)
    (h : k ∈ keysOf l) : keysOf (setKey l k v) = keysOf l := by
  induction l with
  | nil => simp [keysOf] at h
  | cons kv rest ih =>
    obtain ⟨k0, w⟩ := kv
    by_cases h0 : k0 = k
    · simp [setKey, keysOf, h0]
    · simp only [keysOf, List.map_cons, List.mem_cons] at h
      rcases h with h | h
      · exact absurd h.symm h0
      · have := ih (by simpa [keysOf] using h)
        simp only [keysOf] at this
        simp [setKey, keysOf, h0, this]

/-- Option-valued maps preserve length. -/
theorem mapOpt_length {α β : Type} (f : α → Option β) :
    ∀ (l : List α) (l' : List β), mapOpt f l = some l' → l'.length = l.length := by
  intro l
  induction l with
  | nil => intro l' h; simp [mapOpt] at h; simp [← h]
  | cons a rest ih =>
    intro l' h
    simp only [mapOpt] at h
    cases hf : f a with
    | none => rw [hf] at h; cases h
    | some b =>
      rw [hf] at h
      cases hr : mapOpt f rest with
      | none => rw [hr] at h; cases h
      | some bs =>
        rw [hr] at h
        cases h
        simp [ih bs hr]

/-- Pointwise content of a successful Option-valued map. -/
theorem mapOpt_get? {α β : Type} (f : α → Option β) :
    ∀ (l : List α) (l' : List β), mapOpt f l = some l' →
      ∀ (i : Nat) (a : α), l.get? i = some a →
        ∃ b, f a = some b ∧ l'.get? i = some b := by
  intro l
  induction l with
  | nil => intro l' _ i a ha; simp at ha
  | cons a0 rest ih =>
    intro l' h i a ha
    simp only [mapOpt] at h
    cases hf : f a0 with
    | none => rw [hf] at h; cases h
    | some b0 =>
      rw [hf] at h
      cases hr : mapOpt f rest with
      | none => rw [hr] at h; cases h
      | some bs =>
        rw [hr] at h
        cases h
        cases i with
        | zero =>
          simp only [List.get?] at ha
          cases ha
          exact ⟨b0, hf, rfl⟩
        | succ j =>
          simp only [List.get?] at ha ⊢
          exact ih bs hr j a ha

/-- A first-attempt 200 ends the worker loop at once. -/
theorem fetch_first_200 {κ : Type} (it : Item κ) (oracle : Nat → Resp) (maxRetries n : Nat)
    (h200 : (oracle 0).status = 200) (hn : hitsCount200 (oracle 0) = some n) :
    fetch maxRetries it oracle = ⟨1, [], .tup it.query (oracle 0) n, false⟩ := by
  cases maxRetries with
  | zero => simp [fetch, fetchAux, fetchStep, h200, hn]
  | succ m => simp [fetch, fetchAux, fetchStep, h200, hn]

/-- When every dispatched item completes with a tuple, the dispatcher
collects exactly the tuples, in completion order. -/
theorem concFetchAux_ok {κ : Type} (maxRetries : Nat) (items : List (Item κ))
    (oracleFor : Nat → Nat → Resp) (F : Nat → κ × Resp × Nat) :
    ∀ (order : List Nat) (acc : List (κ × Resp × Nat)),
      (∀ i ∈ order, ∃ it, items.get? i = some it ∧
        (fetch maxRetries it (oracleFor i)).out = .tup (F i).1 (F i).2.1 (F i).2.2) →
      concFetchAux maxRetries items oracleFor order acc = .ok (acc ++ order.map F) := by
  intro order
  induction order with
  | nil => intro acc _; simp [concFetchAux]
  | cons i rest ih =>
    intro acc h
    obtain ⟨it, hito, hout⟩ := h i (List.mem_cons_self i rest)
    have hrest : ∀ j ∈ rest, ∃ it, items.get? j = some it ∧
        (fetch maxRetries it (oracleFor j)).out = .tup (F j).1 (F j).2.1 (F j).2.2 :=
      fun j hj => h j (List.mem_cons_of_mem i hj)
    simp only [concFetchAux, hito, hout]
    rw [ih (acc ++ [((F i).1, (F i).2.1, (F i).2.2)]) hrest]
    simp

theorem modifyAt_length {α : Type} (f : α → α) :
    ∀ (l : List α) (n : Nat), (modifyAt l n f).length = l.length := by
  intro l
  induction l with
  | nil => intro n; simp [modifyAt]
  | cons x xs ih =>
    intro n
    cases n with
    | zero => simp [modifyAt]
    | succ m => simp [modifyAt, ih]

theorem modifyAt_get?_ne {α : Type} (f : α → α) :
    ∀ (l : List α) (n i : Nat), i ≠ n → (modifyAt l n f).get? i = l.get? i := by
  intro l
  induction l with
  | nil => intro n i _; simp [modifyAt]
  | cons x xs ih =>
    intro n i hne
    cases n with
    | zero =>
      cases i with
      | zero => exact absurd rfl hne
      | succ j => simp [modifyAt]
    | succ m =>
      cases i with
      | zero => simp [modifyAt]
      | succ j =>
        show (modifyAt xs m f).get? j = xs.get? j
        exact ih m j (fun hh => hne (by rw [hh]))

theorem modifyAt_get?_eq {α : Type} (f : α → α) :
    ∀ (l : List α) (n : Nat), (modifyAt l n f).get? n = (l.get? n).map f := by
  intro l
  induction l with
  | nil => intro n; simp [modifyAt]
  | cons x xs ih =>
    intro n
    cases n with
    | zero => simp [modifyAt]
    | succ m =>
      show (modifyAt xs m f).get? m = (xs.get? m).map f
      exact ih m

/-- Indices outside the completion order keep their original hit. -/
theorem foldl_modifyAt_not_mem {α : Type} (g : Nat → α → α) :
    ∀ (order : List Nat) (l : List α) (i : Nat), i ∉ order →
      (order.foldl (fun hs j => modifyAt hs j (g j)) l).get? i = l.get? i := by
  intro order
  induction order with
  | nil => intro l i _; simp
  | cons j rest ih =>
    intro l i hni
    simp only [List.mem_cons] at hni
    push_neg at hni
    simp only [List.foldl_cons]
    rw [ih (modifyAt l j (g j)) i hni.2, modifyAt_get?_ne (g j) l j i hni.1]

/-- An index hit exactly once by the completion order receives exactly
its own update. -/
theorem foldl_modifyAt_mem {α : Type} (g : Nat → α → α) :
    ∀ (order : List Nat) (l : List α) (i : Nat), order.Nodup → i ∈ order →
      (order.foldl (fun hs j => modifyAt hs j (g j)) l).get? i = (l.get? i).map (g i) := by
  intro order
  induction order with
  | nil => intro l i _ hmem; simp at hmem
  | cons j rest ih =>
    intro l i hnd hmem
    simp only [List.nodup_cons] at hnd
    simp only [List.foldl_cons]
    rcases List.mem_cons.mp hmem with hij | hrest
    · subst hij
      rw [foldl_modifyAt_not_mem g rest (modifyAt l i (g i)) i hnd.1,
        modifyAt_get?_eq]
    · rw [ih (modifyAt l j (g j)) i hnd.2 hrest]
      have hne : i ≠ j := fun hh => hnd.1 (hh ▸ hrest)
      rw [modifyAt_get?_ne (g j) l j i hne]

theorem foldl_modifyAt_length {α : Type} (g : Nat → α → α) :
    ∀ (order : List Nat) (l : List α),
      (order.foldl (fun hs j => modifyAt hs j (g j)) l).length = l.length := by
  intro order
  induction order with
  | nil => intro l; simp
  | cons j rest ih =>
    intro l
    simp only [List.foldl_cons]
    rw [ih (modifyAt l j (g j)), modifyAt_length]

/-- Looking up the transformed key through a `condReplace` map. -/
theorem lookupKey_map_condReplace {α : Type} (t : α → α) (k : String) :
    ∀ (fs : List (String × α)),
      lookupKey (fs.map (condReplace k t)) k = (lookupKey fs k).map t := by
  intro fs
  induction fs with
  | nil => simp [lookupKey]
  | cons kv rest ih =>
    obtain ⟨k0, w⟩ := kv
    by_cases h : k0 = k
    · subst h
      have hc : condReplace k0 t (k0, w) = (k0, t w) := by simp [condReplace]
      rw [List.map_cons, hc]
      simp [lookupKey]
    · have hc : condReplace k t (k0, w) = (k0, w) := by simp [condReplace, h]
      rw [List.map_cons, hc]
      simp [lookupKey, h, ih]

/-- Looking up `hits` in a body whose hit array has been replaced. -/
theorem jLookup_jsonReplaceHits (fields : List (String × Json)) (merged : List Json) :
    jLookup (jsonReplaceHits (Json.obj fields) merged) "hits" =
      (lookupKey fields "hits").map (fun h1 =>
        match h1 with
        | .obj inner => Json.obj (inner.map (condReplace "hits" (fun _ => Json.arr merged)))
        | other => other) := by
  simp only [jsonReplaceHits, jLookup]
  exact lookupKey_map_condReplace _ "hits" fields

/-- Re-serializing the body with a replaced hit list makes the replaced
list what `json()` then reads back. -/
theorem getJsonHits_replace (r : Resp) (hits merged : List Json)
    (h : getJsonHits r = some hits) :
    getJsonHits { r with jsonBody := r.jsonBody.map (fun b => jsonReplaceHits b merged) } =
      some merged := by
  unfold getJsonHits at h
  split at h
  · cases h
  · rename_i body hb
    split at h
    · cases h
    · rename_i h1 hh1
      split at h
      · cases h
      · rename_i h2 hh2
        cases body with
        | str s => simp [jLookup] at hh1
        | num n => simp [jLookup] at hh1
        | bool c => simp [jLookup] at hh1
        | null => simp [jLookup] at hh1
        | arr xs => simp [jLookup] at hh1
        | obj fields =>
          cases h1 with
          | str s => simp [jLookup] at hh2
          | num n => simp [jLookup] at hh2
          | bool c => simp [jLookup] at hh2
          | null => simp [jLookup] at hh2
          | arr xs => simp [jLookup] at hh2
          | obj inner =>
            unfold getJsonHits
            simp only [hb, Option.map_some']
            rw [jLookup_jsonReplaceHits fields merged]
            simp only [jLookup] at hh1 hh2
            rw [hh1]
            simp only [Option.map_some']
            simp only [jLookup]
            rw [lookupKey_map_condReplace (fun _ => Json.arr merged) "hits" inner, hh2]
            simp [asArr]

/-- The response object after `response._content` is overwritten with
the re-serialized merged body. -/
def mergedRespOf (r : Resp) (merged : List Json) : Resp :=
  { r with jsonBody := r.jsonBody.map (fun b => jsonReplaceHits b merged) }

/-- Merging a keyed response list built over a completion order: an
index occurring once receives exactly its own image payload. -/
theorem mergeImages_map_get?_mem (f : Nat → Resp) (cnt : Nat → Nat) (order : List Nat)
    (hits : List Json) (i : Nat) (hnd : order.Nodup) (hmem : i ∈ order) :
    (mergeImages hits (order.map (fun j => (j, f j, cnt j)))).get? i =
      (hits.get? i).map (fun hit => jUpdate hit "image_content" (imageContentOf (f i))) := by
  rw [mergeImages, List.foldl_map]
  exact foldl_modifyAt_mem
    (fun j hit => jUpdate hit "image_content" (imageContentOf (f j))) order hits i hnd hmem

theorem mergeImages_map_length (f : Nat → Resp) (cnt : Nat → Nat) (order : List Nat)
    (hits : List Json) :
    (mergeImages hits (order.map (fun j => (j, f j, cnt j)))).length = hits.length := by
  rw [mergeImages, List.foldl_map]
  exact foldl_modifyAt_length
    (fun j hit => jUpdate hit "image_content" (imageContentOf (f j))) order hits

/-- Full characterization of the images branch of `search_media`: the
primary search succeeds with a JSON body, every hit resolves a storage
URI, every secondary fetch answers 200 with image bytes, and the
completion order is an arbitrary permutation of the hit indices. -/
theorem search_media_images_spec
    (host token q ds de : String) (limit : Int) (maxRetries : Nat)
    (primaryOracle : Nat → Resp) (secondaryOracleFor : Nat → Nat → Resp)
    (order : List Nat) (hits : List Json) (items : List (Item Nat))
    (h200 : (primaryOracle 0).status = 200)
    (hct : (primaryOracle 0).contentType = some "application/json")
    (hhits : getJsonHits (primaryOracle 0) = some hits)
    (hitems : buildImageItems token hits = some items)
    (hsec : ∀ i, i < hits.length → (secondaryOracleFor i 0).status = 200 ∧
      (secondaryOracleFor i 0).contentType = some "image/jpeg")
    (hord : order.Perm (List.range hits.length)) :
    search_media host token q ds de limit true maxRetries primaryOracle
        secondaryOracleFor order =
      .ok ⟨q,
        mergedRespOf (primaryOracle 0)
          (mergeImages hits (order.map (fun i => (i, secondaryOracleFor i 0, 1)))),
        hits.length, items⟩ ∧
    (mergeImages hits (order.map (fun i => (i, secondaryOracleFor i 0, 1)))).length =
      hits.length ∧
    (∀ i hit, hits.get? i = some hit →
      (∃ u, storageUriOf hit = some u) ∧
      (mergeImages hits (order.map (fun i => (i, secondaryOracleFor i 0, 1)))).get? i =
        some (jUpdate hit "image_content" (imageContentOf (secondaryOracleFor i 0)))) := by
  have hnodup : order.Nodup := hord.nodup_iff.mpr (List.nodup_range (n := hits.length))
  have hmemiff : ∀ i, i ∈ order ↔ i < hits.length := fun i => by
    rw [hord.mem_iff, List.mem_range]
  have hjson : containsSub "application/json".data "application/json".data = true := by
    decide
  have hcount : hitsCount200 (primaryOracle 0) = some hits.length := by
    simp [hitsCount200, hasJsonContentType, hct, hjson, hhits]
  have hfetch := fetch_first_200 (searchMediaPrimaryItem host token q ds de limit)
    primaryOracle maxRetries hits.length h200 hcount
  have hitem_at : ∀ i hit, hits.get? i = some hit →
      ∃ u, storageUriOf hit = some u ∧ items.get? i = some (imageItemFor token i u) := by
    intro i hit hget
    have henum : hits.enum.get? i = some (i, hit) := by
      rw [List.get?_enum, hget]
      rfl
    obtain ⟨b, hfb, hbi⟩ := mapOpt_get? _ hits.enum items hitems i (i, hit) henum
    simp only at hfb
    rcases Option.map_eq_some'.mp hfb with ⟨u, hu, hb⟩
    exact ⟨u, hu, hb ▸ hbi⟩
  have hjpeg : containsSub "application/json".data "image/jpeg".data = false := by decide
  have hsecfetch : ∀ i ∈ order, ∃ it, items.get? i = some it ∧
      (fetch maxRetries it (secondaryOracleFor i)).out =
        .tup ((fun i => (i, secondaryOracleFor i 0, 1)) i).1
          ((fun i => (i, secondaryOracleFor i 0, 1)) i).2.1
          ((fun i => (i, secondaryOracleFor i 0, 1)) i).2.2 := by
    intro i hi
    have hlt : i < hits.length := (hmemiff i).mp hi
    have hget : hits.get? i = some (hits.get ⟨i, hlt⟩) := List.get?_eq_get hlt
    obtain ⟨u, _, hitem⟩ := hitem_at i _ hget
    refine ⟨imageItemFor token i u, hitem, ?_⟩
    have hc1 : hitsCount200 (secondaryOracleFor i 0) = some 1 := by
      simp [hitsCount200, hasJsonContentType, (hsec i hlt).2, hjpeg]
    rw [fetch_first_200 (imageItemFor token i u) (secondaryOracleFor i) maxRetries 1
      (hsec i hlt).1 hc1]
    rfl
  have hconc : concurrentFetches maxRetries items secondaryOracleFor order =
      .ok (order.map (fun i => (i, secondaryOracleFor i 0, 1))) := by
    have := concFetchAux_ok maxRetries items secondaryOracleFor
      (fun i => (i, secondaryOracleFor i 0, 1)) order [] hsecfetch
    simpa [concurrentFetches] using this
  refine ⟨?_, ?_, ?_⟩
  · simp only [search_media, hfetch, hhits, hitems, hconc]
    rfl
  · exact mergeImages_map_length (fun i => secondaryOracleFor i 0) (fun _ => 1) order hits
  · intro i hit hget
    have hlt : i < hits.length := by
      rcases List.get?_eq_some.mp hget with ⟨hlt, _⟩
      exact hlt
    obtain ⟨u, hu, _⟩ := hitem_at i hit hget
    refine ⟨⟨u, hu⟩, ?_⟩
    rw [mergeImages_map_get?_mem (fun i => secondaryOracleFor i 0) (fun _ => 1) order hits i
      hnodup ((hmemiff i).mpr hlt), hget]
    rfl

/-- C3: for a valid `search_media` request with images on, and for any
completion order of the secondary fetches (any permutation of the hit
indices), the image payload merged into hit i is exactly the base64
encoding of the body returned by the secondary fetch whose correlation
key is i. -/
theorem c3_search_media_image_pairing
    (host token q ds de : String) (limit : Int) (maxRetries : Nat)
    (primaryOracle : Nat → Resp) (secondaryOracleFor : Nat → Nat → Resp)
    (order : List Nat) (hits : List Json) (items : List (Item Nat))
    (h200 : (primaryOracle 0).status = 200)
    (hct : (primaryOracle 0).contentType = some "application/json")
    (hhits : getJsonHits (primaryOracle 0) = some hits)
    (hitems : buildImageItems token hits = some items)
    (hsec : ∀ i, i < hits.length → (secondaryOracleFor i 0).status = 200 ∧
      (secondaryOracleFor i 0).contentType = some "image/jpeg")
    (hord : order.Perm (List.range hits.length)) :
    ∃ res, search_media host token q ds de limit true maxRetries primaryOracle
        secondaryOracleFor order = .ok res ∧
      ∃ merged, getJsonHits res.resp = some merged ∧
        ∀ i hit, hits.get? i = some hit →
          merged.get? i = some (jUpdate hit "image_content"
            (Json.str (create_b64_image_string (secondaryOracleFor i 0).content))) := by
  obtain ⟨hmain, _, hper⟩ := search_media_images_spec host token q ds de limit maxRetries
    primaryOracle secondaryOracleFor order hits items h200 hct hhits hitems hsec hord
  refine ⟨_, hmain,
    mergeImages hits (order.map (fun i => (i, secondaryOracleFor i 0, 1))), ?_, ?_⟩
  · exact getJsonHits_replace (primaryOracle 0) hits _ hhits
  · intro i hit hget
    exact (hper i hit hget).2

/-- C10: with images on, the merge touches only the hit list of the
primary response: the status code is untouched, the number and order of
hits are kept, each hit (an object without a prior `image_content` key)
gains exactly the one appended key `image_content`, and every
pre-existing key still looks up to its old value. -/
theorem c10_search_media_merge_frame
    (host token q ds de : String) (limit : Int) (maxRetries : Nat)
    (primaryOracle : Nat → Resp) (secondaryOracleFor : Nat → Nat → Resp)
    (order : List Nat) (hits : List Json) (items : List (Item Nat))
    (h200 : (primaryOracle 0).status = 200)
    (hct : (primaryOracle 0).contentType = some "application/json")
    (hhits : getJsonHits (primaryOracle 0) = some hits)
    (hitems : buildImageItems token hits = some items)
    (hsec : ∀ i, i < hits.length → (secondaryOracleFor i 0).status = 200 ∧
      (secondaryOracleFor i 0).contentType = some "image/jpeg")
    (hord : order.Perm (List.range hits.length))
    (hno : ∀ hit ∈ hits, jLookup hit "image_content" = none) :
    ∃ res, search_media host token q ds de limit true maxRetries primaryOracle
        secondaryOracleFor order = .ok res ∧
      res.resp.status = (primaryOracle 0).status ∧
      ∃ merged, getJsonHits res.resp = some merged ∧
        merged.length = hits.length ∧
        ∀ i hit, hits.get? i = some hit →
          ∃ fields, hit = Json.obj fields ∧
            merged.get? i = some (Json.obj (fields ++
              [("image_content", imageContentOf (secondaryOracleFor i 0))])) ∧
            keysOf (fields ++ [("image_content", imageContentOf (secondaryOracleFor i 0))]) =
              keysOf fields ++ ["image_content"] ∧
            ∀ k, k ≠ "image_content" →
              lookupKey (fields ++
                  [("image_content", imageContentOf (secondaryOracleFor i 0))]) k =
                lookupKey fields k := by
  obtain ⟨hmain, hlen, hper⟩ := search_media_images_spec host token q ds de limit maxRetries
    primaryOracle secondaryOracleFor order hits items h200 hct hhits hitems hsec hord
  refine ⟨_, hmain, rfl,
    mergeImages hits (order.map (fun i => (i, secondaryOracleFor i 0, 1))),
    getJsonHits_replace (primaryOracle 0) hits _ hhits, hlen, ?_⟩
  intro i hit hget
  obtain ⟨⟨u, hu⟩, hmg⟩ := hper i hit hget
  have hobj : ∃ fields, hit = Json.obj fields := by
    cases hit with
    | obj fields => exact ⟨fields, rfl⟩
    | str s => simp [storageUriOf, jLookup] at hu
    | num n => simp [storageUriOf, jLookup] at hu
    | bool c => simp [storageUriOf, jLookup] at hu
    | null => simp [storageUriOf, jLookup] at hu
    | arr xs => simp [storageUriOf, jLookup] at hu
  obtain ⟨fields, rfl⟩ := hobj
  have hnone : lookupKey fields "image_content" = none := by
    simpa [jLookup] using hno _ (List.get?_mem hget)
  have hnotin : "image_content" ∉ keysOf fields :=
    (lookupKey_eq_none_iff fields "image_content").mp hnone
  have happ : setKey fields "image_content" (imageContentOf (secondaryOracleFor i 0)) =
      fields ++ [("image_content", imageContentOf (secondaryOracleFor i 0))] :=
    setKey_not_mem fields _ _ hnotin
  refine ⟨fields, rfl, ?_, ?_, ?_⟩
  · rw [hmg]
    simp [jUpdate, happ]
  · simp [keysOf]
  · intro k hk
    rw [← happ, lookupKey_setKey_ne fields "image_content" k _ hk]

/-- C7: with images off, `search_media` dispatches no secondary fetch
items and hands the primary response through unchanged; flattening then
yields exactly one row per hit of the primary response. -/
theorem c7_search_media_no_images
    (host token q ds de : String) (limit : Int) (maxRetries : Nat)
    (primaryOracle : Nat → Resp) (secondaryOracleFor : Nat → Nat → Resp)
    (order : List Nat) (hits : List Json)
    (h200 : (primaryOracle 0).status = 200)
    (hct : (primaryOracle 0).contentType = some "application/json")
    (hhits : getJsonHits (primaryOracle 0) = some hits) :
    ∃ res, search_media host token q ds de limit false maxRetries primaryOracle
        secondaryOracleFor order = .ok res ∧
      res.secondaryItems = [] ∧ res.resp = primaryOracle 0 ∧
      ∀ rows, parseSearchMedia res.key res.resp = .ok rows → rows.length = hits.length := by
  have hjson : containsSub "application/json".data "application/json".data = true := by
    decide
  have hcount : hitsCount200 (primaryOracle 0) = some hits.length := by
    simp [hitsCount200, hasJsonContentType, hct, hjson, hhits]
  have hfetch := fetch_first_200 (searchMediaPrimaryItem host token q ds de limit)
    primaryOracle maxRetries hits.length h200 hcount
  refine ⟨⟨q, primaryOracle 0, hits.length, []⟩, ?_, rfl, rfl, ?_⟩
  · simp only [search_media, hfetch]
    rfl
  · intro rows hrows
    simp only [parseSearchMedia, hhits] at hrows
    cases hmo : mapOpt (searchMediaFlattenHit q) hits with
    | none => rw [hmo] at hrows; cases hrows
    | some rows0 =>
      rw [hmo] at hrows
      cases hrows
      exact mapOpt_length _ hits _ hmo

/-- First media hit of the witness scenario, with a storage URI. -/
def mHit0 : Json :=
  .obj [("_source", .obj [("media", .obj [("storage_uri", .str "u0")]),
    ("sort_date", .str "2024-01-02")])]

/-- Second media hit of the witness scenario. -/
def mHit1 : Json :=
  .obj [("_source", .obj [("media", .obj [("storage_uri", .str "u1")]),
    ("sort_date", .str "2024-01-03")])]

/-- Primary 200 search response of the witness scenario, two hits. -/
def mPrimaryResp : Resp :=
  ⟨200, some "application/json",
   some (.obj [("hits", .obj [("total", .num 2), ("hits", .arr [mHit0, mHit1])])]), []⟩

/-- The secondary image response of hit i: 200, jpeg, distinct bytes. -/
def mSecResp (i : Nat) : Resp := ⟨200, some "image/jpeg", none, [65 + i]⟩

/-- The secondary items `search_media` builds for the two hits. -/
def mItems : List (Item Nat) :=
  [imageItemFor "tok" 0 (.str "u0"), imageItemFor "tok" 1 (.str "u1")]

/-- Witness for C3 at a two-hit scenario with out-of-order completion
(the fetch for hit 1 completes before the fetch for hit 0). -/
theorem c3_witness :
    ((fun _ : Nat => mPrimaryResp) 0).status = 200 ∧
    ((fun _ : Nat => mPrimaryResp) 0).contentType = some "application/json" ∧
    getJsonHits ((fun _ : Nat => mPrimaryResp) 0) = some [mHit0, mHit1] ∧
    buildImageItems "tok" [mHit0, mHit1] = some mItems ∧
    (∀ i, i < ([mHit0, mHit1] : List Json).length →
      ((fun i _ => mSecResp i) i 0).status = 200 ∧
      ((fun i _ => mSecResp i) i 0).contentType = some "image/jpeg") ∧
    ([1, 0] : List Nat).Perm (List.range ([mHit0, mHit1] : List Json).length) ∧
    (∃ res, search_media "fp.example" "tok" "q" "2024-01-01" "2024-01-31" 25 true 3
        (fun _ => mPrimaryResp) (fun i _ => mSecResp i) [1, 0] = .ok res ∧
      ∃ merged, getJsonHits res.resp = some merged ∧
        ∀ i hit, ([mHit0, mHit1] : List Json).get? i = some hit →
          merged.get? i = some (jUpdate hit "image_content"
            (Json.str (create_b64_image_string ((fun i _ => mSecResp i) i 0).content)))) :=
  ⟨rfl, rfl, rfl, rfl, fun _ _ => ⟨rfl, rfl⟩, by decide,
   c3_search_media_image_pairing "fp.example" "tok" "q" "2024-01-01" "2024-01-31" 25 3
     (fun _ => mPrimaryResp) (fun i _ => mSecResp i) [1, 0] [mHit0, mHit1] mItems
     rfl rfl rfl rfl (fun _ _ => ⟨rfl, rfl⟩) (by decide)⟩

/-- Witness for C10 at the same two-hit out-of-order scenario. -/
theorem c10_witness :
    ((fun _ : Nat => mPrimaryResp) 0).status = 200 ∧
    ((fun _ : Nat => mPrimaryResp) 0).contentType = some "application/json" ∧
    getJsonHits ((fun _ : Nat => mPrimaryResp) 0) = some [mHit0, mHit1] ∧
    buildImageItems "tok" [mHit0, mHit1] = some mItems ∧
    (∀ i, i < ([mHit0, mHit1] : List Json).length →
      ((fun i _ => mSecResp i) i 0).status = 200 ∧
      ((fun i _ => mSecResp i) i 0).contentType = some "image/jpeg") ∧
    ([1, 0] : List Nat).Perm (List.range ([mHit0, mHit1] : List Json).length) ∧
    (∀ hit ∈ ([mHit0, mHit1] : List Json), jLookup hit "image_content" = none) ∧
    (∃ res, search_media "fp.example" "tok" "q" "2024-01-01" "2024-01-31" 25 true 3
        (fun _ => mPrimaryResp) (fun i _ => mSecResp i) [1, 0] = .ok res ∧
      res.resp.status = ((fun _ : Nat => mPrimaryResp) 0).status ∧
      ∃ merged, getJsonHits res.resp = some merged ∧
        merged.length = ([mHit0, mHit1] : List Json).length ∧
        ∀ i hit, ([mHit0, mHit1] : List Json).get? i = some hit →
          ∃ fields, hit = Json.obj fields ∧
            merged.get? i = some (Json.obj (fields ++
              [("image_content", imageContentOf ((fun i _ => mSecResp i) i 0))])) ∧
            keysOf (fields ++
                [("image_content", imageContentOf ((fun i _ => mSecResp i) i 0))]) =
              keysOf fields ++ ["image_content"] ∧
            ∀ k, k ≠ "image_content" →
              lookupKey (fields ++
                  [("image_content", imageContentOf ((fun i _ => mSecResp i) i 0))]) k =
                lookupKey fields k) :=
  ⟨rfl, rfl, rfl, rfl, fun _ _ => ⟨rfl, rfl⟩, by decide,
   by intro hit hmem; fin_cases hmem <;> rfl,
   c10_search_media_merge_frame "fp.example" "tok" "q" "2024-01-01" "2024-01-31" 25 3
     (fun _ => mPrimaryResp) (fun i _ => mSecResp i) [1, 0] [mHit0, mHit1] mItems
     rfl rfl rfl rfl (fun _ _ => ⟨rfl, rfl⟩) (by decide)
     (by intro hit hmem; fin_cases hmem <;> rfl)⟩

/-- Witness for C7: the two-hit primary response with images off
flattens to exactly two rows and dispatches nothing secondary. -/
theorem c7_witness :
    ((fun _ : Nat => mPrimaryResp) 0).status = 200 ∧
    ((fun _ : Nat => mPrimaryResp) 0).contentType = some "application/json" ∧
    getJsonHits ((fun _ : Nat => mPrimaryResp) 0) = some [mHit0, mHit1] ∧
    (∃ res, search_media "fp.example" "tok" "q" "2024-01-01" "2024-01-31" 25 false 3
        (fun _ => mPrimaryResp) (fun i _ => mSecResp i) [] = .ok res ∧
      res.secondaryItems = [] ∧ res.resp = (fun _ : Nat => mPrimaryResp) 0 ∧
      ∀ rows, parseSearchMedia res.key res.resp = .ok rows →
        rows.length = ([mHit0, mHit1] : List Json).length) ∧
    (parseSearchMedia "q" mPrimaryResp).isOk = true :=
  ⟨rfl, rfl, rfl,
   c7_search_media_no_images "fp.example" "tok" "q" "2024-01-01" "2024-01-31" 25 3
     (fun _ => mPrimaryResp) (fun i _ => mSecResp i) [] [mHit0, mHit1] rfl rfl rfl,
   by rfl⟩

/-- Joining a single match gives back its value. -/
theorem intercalate_singleton (sep v : String) : String.intercalate sep [v] = v := by
  simp [String.intercalate, String.intercalate.go]

theorem keysOf_append {α : Type} (l l' : List (String × α)) :
    keysOf (l ++ l') = keysOf l ++ keysOf l' := by
  simp [keysOf]

/-- Columns that are neither rewritten by the remaining paths nor the
query column survive the rest of the flattening loop untouched. -/
theorem mediaFlattenAux_lookup_preserved (q : String) (hit : Json) :
    ∀ (ps : List (String × JPath)) (row row' : Row) (s : String),
      mediaFlattenAux q hit ps row = some row' →
      s ∉ ps.map Prod.fst → s ≠ "query_term" →
      lookupKey row' s = lookupKey row s := by
  intro ps
  induction ps with
  | nil =>
    intro row row' s h _ _
    cases h
    rfl
  | cons sp rest ih =>
    intro row row' s h hnot hneq
    obtain ⟨s0, p0⟩ := sp
    simp only [mediaFlattenAux] at h
    cases hf : findValueByPath p0 hit with
    | none => rw [hf] at h; cases h
    | some v =>
      rw [hf] at h
      simp only [List.map_cons, List.mem_cons] at hnot
      push_neg at hnot
      rw [ih _ _ s h hnot.2 hneq,
        lookupKey_setKey_ne _ s0 s v hnot.1,
        lookupKey_setKey_ne _ "query_term" s q hneq]

/-- The flattened row maps each path column to the comma-join of the
string values its path matches. -/
theorem mediaFlattenAux_lookup_mem (q : String) (hit : Json) :
    ∀ (ps : List (String × JPath)) (row row' : Row) (s : String) (p : JPath),
      mediaFlattenAux q hit ps row = some row' →
      (s, p) ∈ ps → (ps.map Prod.fst).Nodup → "query_term" ∉ ps.map Prod.fst →
      ∃ vs, mapOpt asStr (jfind p hit) = some vs ∧
        lookupKey row' s = some (String.intercalate ", " vs) := by
  intro ps
  induction ps with
  | nil =>
    intro row row' s p _ hmem _ _
    cases hmem
  | cons sp rest ih =>
    intro row row' s p h hmem hnd hqt
    obtain ⟨s0, p0⟩ := sp
    simp only [mediaFlattenAux] at h
    cases hf : findValueByPath p0 hit with
    | none => rw [hf] at h; cases h
    | some v =>
      rw [hf] at h
      simp only [List.map_cons, List.nodup_cons] at hnd
      simp only [List.map_cons, List.mem_cons] at hqt
      push_neg at hqt
      rcases List.mem_cons.mp hmem with heq | hmem'
      · obtain ⟨hs, hp⟩ := Prod.mk.injEq s p s0 p0 ▸ heq
        subst hs
        subst hp
        rcases Option.map_eq_some'.mp hf with ⟨vs, hvs, hv⟩
        refine ⟨vs, hvs, ?_⟩
        rw [mediaFlattenAux_lookup_preserved q hit rest _ _ s h hnd.1
          (fun hh => hqt.1 hh.symm),
          lookupKey_setKey_self, hv]
      · exact ih _ _ s p h hmem' hnd.2 hqt.2

/-- Key list of the flattened row, generalized over the accumulated
row. -/
theorem mediaFlattenAux_keys (q : String) (hit : Json) :
    ∀ (ps : List (String × JPath)) (row row' : Row),
      mediaFlattenAux q hit ps row = some row' →
      "query_term" ∈ keysOf row →
      (∀ s ∈ ps.map Prod.fst, s ∉ keysOf row) →
      (ps.map Prod.fst).Nodup →
      keysOf row' = keysOf row ++ ps.map Prod.fst := by
  intro ps
  induction ps with
  | nil =>
    intro row row' h _ _ _
    cases h
    simp
  | cons sp rest ih =>
    intro row row' h hqt hfresh hnd
    obtain ⟨s0, p0⟩ := sp
    simp only [mediaFlattenAux] at h
    cases hf : findValueByPath p0 hit with
    | none => rw [hf] at h; cases h
    | some v =>
      rw [hf] at h
      simp only [List.map_cons, List.nodup_cons] at hnd
      have hkq : keysOf (setKey row "query_term" q) = keysOf row :=
        keysOf_setKey_mem row "query_term" q hqt
      have hs0 : s0 ∉ keysOf (setKey row "query_term" q) := by
        rw [hkq]
        exact hfresh s0 (by simp)
      have hrow1 : keysOf (setKey (setKey row "query_term" q) s0 v) = keysOf row ++ [s0] := by
        rw [setKey_not_mem _ s0 v hs0, keysOf_append, hkq]
        rfl
      have hqt1 : "query_term" ∈ keysOf (setKey (setKey row "query_term" q) s0 v) := by
        rw [hrow1]
        exact List.mem_append_left _ hqt
      have hfresh1 : ∀ s ∈ rest.map Prod.fst,
          s ∉ keysOf (setKey (setKey row "query_term" q) s0 v) := by
        intro s hs
        rw [hrow1]
        simp only [List.mem_append, List.mem_singleton]
        push_neg
        exact ⟨hfresh s (by simp [hs]), fun hh => hnd.1 (hh ▸ hs)⟩
      rw [ih _ _ h hqt1 hfresh1 hnd.2, hrow1, List.map_cons]
      simp

/-- Key list of the flattened row when the loop starts from the empty
dict: the injected query column followed by every path column. -/
theorem mediaFlattenAux_keys_from_nil (q : String) (hit : Json) :
    ∀ (ps : List (String × JPath)) (row' : Row),
      ps ≠ [] →
      mediaFlattenAux q hit ps [] = some row' →
      (ps.map Prod.fst).Nodup → "query_term" ∉ ps.map Prod.fst →
      keysOf row' = "query_term" :: ps.map Prod.fst := by
  intro ps row' hne h hnd hqt
  cases ps with
  | nil => exact absurd rfl hne
  | cons sp rest =>
    obtain ⟨s0, p0⟩ := sp
    simp only [mediaFlattenAux] at h
    split at h
    · cases h
    · rename_i v hf
      simp only [List.map_cons, List.nodup_cons] at hnd
      simp only [List.map_cons, List.mem_cons] at hqt
      push_neg at hqt
      have hrow1 : setKey (setKey ([] : Row) "query_term" q) s0 v =
          [("query_term", q), (s0, v)] := by
        have hne0 : ¬ "query_term" = s0 := hqt.1
        simp [setKey, hne0]
      rw [hrow1] at h
      have := mediaFlattenAux_keys q hit rest [("query_term", q), (s0, v)] row' h
        (by simp [keysOf])
        (by
          intro s hs
          simp only [keysOf, List.map_cons, List.map_nil, List.mem_cons,
            List.not_mem_nil]
          push_neg
          refine ⟨fun hh => hqt.2 (hh ▸ hs), fun hh => hnd.1 (hh ▸ hs), ?_⟩
          simp)
        hnd.2
      rw [this]
      simp [keysOf]

/-- C9: for every raw hit and every path of the fixed search_media path
list, a flattened row maps the path column to the comma-join of the
matched string values (the empty string for zero matches, the value
itself for one match), and the row keys are exactly the injected
query_term column followed by the path strings. -/
theorem c9_flatten_row (q : String) (hit : Json) (s : String) (p : JPath) (row : Row)
    (hmem : (s, p) ∈ mediaPathsP)
    (hrow : searchMediaFlattenHit q hit = some row) :
    keysOf row = "query_term" :: mediaPathsP.map Prod.fst ∧
    ∃ vs, mapOpt asStr (jfind p hit) = some vs ∧
      lookupKey row s = some (String.intercalate ", " vs) ∧
      (vs = [] → lookupKey row s = some "") ∧
      ∀ v, vs = [v] → lookupKey row s = some v := by
  have hnd : (mediaPathsP.map Prod.fst).Nodup := by decide
  have hqt : "query_term" ∉ mediaPathsP.map Prod.fst := by decide
  constructor
  · exact mediaFlattenAux_keys_from_nil q hit mediaPathsP row (by decide) hrow hnd hqt
  · obtain ⟨vs, hvs, hlk⟩ :=
      mediaFlattenAux_lookup_mem q hit mediaPathsP [] row s p hrow hmem hnd hqt
    refine ⟨vs, hvs, hlk, ?_, ?_⟩
    · intro hnil
      subst hnil
      simpa using hlk
    · intro v hone
      subst hone
      rwa [intercalate_singleton] at hlk

/-- The hit used to witness C9: a sort date and a title, everything
else absent. -/
def c9Hit : Json :=
  .obj [("_source", .obj [("sort_date", .str "2024-01-02"), ("title", .str "hello")])]

/-- The row `search_media` flattening produces for `c9Hit`. -/
def c9Row : Row :=
  [("query_term", "alpha"), ("image_content", ""),
   ("_source.sort_date", "2024-01-02"), ("_source.title", "hello"),
   ("_source.media.fpid", ""), (textPlainPathStr, ""),
   ("_source.enrichments.v1.social_media[*].handle", ""),
   ("_source.enrichments.v1.social_media[*].site", ""),
   ("_source.enrichments.v1.urls[*].domain", ""),
   ("_source.media.md5", ""), ("_source.media.sha1", ""),
   ("_source.media.phash", ""), ("_source.container.fpid", ""),
   ("_source.media.storage_uri", ""),
   ("_source.site_actor.names.aliases[*]", ""),
   ("_source.site_actor.native_id", ""), (mediaV2PathStr, "")]

/-- Witness for C9 at the single-match column `_source.sort_date` of a
concrete hit. -/
theorem c9_witness :
    ("_source.sort_date", ([.field "_source", .field "sort_date"] : JPath)) ∈ mediaPathsP ∧
    searchMediaFlattenHit "alpha" c9Hit = some c9Row ∧
    (keysOf c9Row = "query_term" :: mediaPathsP.map Prod.fst ∧
      ∃ vs, mapOpt asStr (jfind [.field "_source", .field "sort_date"] c9Hit) = some vs ∧
        lookupKey c9Row "_source.sort_date" = some (String.intercalate ", " vs) ∧
        (vs = [] → lookupKey c9Row "_source.sort_date" = some "") ∧
        ∀ v, vs = [v] → lookupKey c9Row "_source.sort_date" = some v) :=
  ⟨by decide, by rfl,
   c9_flatten_row "alpha" c9Hit "_source.sort_date" [.field "_source", .field "sort_date"]
     c9Row (by decide) (by rfl)⟩

end FPV
